import Mathlib

/-!
Verification development for the HerkyHack admissions-video finder.

Part I embeds the client (frontend/src/App.jsx): the React component's
state hooks become a `ClientState` record, each input handler becomes a
`ClientEvent`, and `handleSearch` becomes a pure function from the state
to either a client-input error or the outgoing search payload.

Part II models the backend resolution engine (permutation generator, URL
resolver, two-phase probe client, search orchestrator and reference-data
lookup).  The backend source (backend/main.py) is not part of the
repository snapshot — only the client, README and shell scripts are — so
those definitions are modelled from the specification, as their doc
comments state.

All definitions come first, then the theorems.
-/

/-! ## Definitions — Part I: the client (frontend/src/App.jsx) -/

/-- The Unicode uppercase mapping of one character as JavaScript
`String.prototype.toUpperCase` applies it, embedded exactly on the
Basic Latin and Latin-1 Supplement blocks: `a`..`z` shift by 32,
`ß` (U+00DF) expands to the two characters `SS`, `ÿ` (U+00FF) maps out
of the block to `Ÿ` (U+0178), `µ` (U+00B5) to Greek `Μ` (U+039C), and
`à`..`þ` (except `÷`) shift by 32.  Characters outside these two blocks
are carried unchanged — an explicitly scoped under-approximation of the
full Unicode table. -/
def jsCharUpper (c : Char) : List Char :=
  if 97 ≤ c.toNat && c.toNat ≤ 122 then [Char.ofNat (c.toNat - 32)]
  else if c.toNat == 0xDF then [Char.ofNat 0x53, Char.ofNat 0x53]
  else if c.toNat == 0xFF then [Char.ofNat 0x178]
  else if c.toNat == 0xB5 then [Char.ofNat 0x39C]
  else if (0xE0 ≤ c.toNat && c.toNat ≤ 0xFE) && c.toNat != 0xF7 then
    [Char.ofNat (c.toNat - 0x20)]
  else [c]

/-- Concatenate the per-character uppercase mappings of a character
list.  Because of `ß → SS` this is not length-preserving. -/
def upList : List Char → List Char
  | [] => []
  | c :: cs => jsCharUpper c ++ upList cs

/-- Embedding of JavaScript `String.prototype.toUpperCase` (scoped as
`jsCharUpper` describes).  Used by the `state` input handler
(`App.jsx` line 187). -/
def jsToUpper (s : String) : String := String.mk (upList s.data)

/-- The React component's state hooks (`App.jsx` lines 5-12) that feed
`handleSearch`.  `loading`, `result`, `error` and `showInstructions` are
display-only and are not part of the outgoing request. -/
structure ClientState where
  firstName : String
  lastName : String
  stateField : String
  searchMethod : String
  hometown : String
  selectedCounty : String
  showDebug : Bool
  deriving DecidableEq, Repr

/-- Initial hook values (`App.jsx` lines 5-12): empty names, state
preset to `"IA"`, method `"direct"`. -/
def initState : ClientState :=
  { firstName := "", lastName := "", stateField := "IA",
    searchMethod := "direct", hometown := "", selectedCounty := "",
    showDebug := false }

/-- One user interaction with the form: each constructor mirrors one
`onChange`/`onClick` handler in `App.jsx`. -/
inductive ClientEvent where
  | editFirstName (v : String)
  | editLastName (v : String)
  | editState (v : String)
  | chooseDirect
  | chooseCounty
  | editHometown (v : String)
  | chooseCountyName (v : String)
  | toggleDebug (b : Bool)
  deriving DecidableEq, Repr

/-- State transition of the form.  `editState` stores the uppercased
value (`App.jsx` line 187: `setState(e.target.value.toUpperCase())`);
the two method buttons store the literals `"direct"` / `"county"`
(lines 204 and 215). -/
def step (s : ClientState) : ClientEvent → ClientState
  | .editFirstName v => { s with firstName := v }
  | .editLastName v => { s with lastName := v }
  | .editState v => { s with stateField := jsToUpper v }
  | .chooseDirect => { s with searchMethod := "direct" }
  | .chooseCounty => { s with searchMethod := "county" }
  | .editHometown v => { s with hometown := v }
  | .chooseCountyName v => { s with selectedCounty := v }
  | .toggleDebug b => { s with showDebug := b }

/-- The form state after a sequence of interactions, starting from the
initial hook values. -/
def runEvents (es : List ClientEvent) : ClientState :=
  es.foldl step initState

/-- The JSON body posted to `/api/search` (`App.jsx` lines 55-62). -/
structure SearchPayload where
  first_name : String
  last_name : String
  state : String
  hometown : Option String
  county : Option String
  show_debug : Bool
  deriving DecidableEq, Repr

/-- What a form submission does before any network activity: either an
immediate client-input error, or the payload of the POST request. -/
inductive ClientOutcome where
  | clientError (msg : String)
  | request (p : SearchPayload)
  deriving DecidableEq, Repr

/-- Embedding of `handleSearch` (`App.jsx` lines 32-70): the three
validation guards in order, then the POST body.  JavaScript `!s` on a
string is the empty-string test. -/
def handleSearch (s : ClientState) : ClientOutcome :=
  if s.firstName.isEmpty || s.lastName.isEmpty || s.stateField.isEmpty then
    .clientError "Please fill in first name, last name, and state"
  else if s.searchMethod == "direct" && s.hometown.isEmpty then
    .clientError "Please enter a hometown"
  else if s.searchMethod == "county" && s.selectedCounty.isEmpty then
    .clientError "Please select a county"
  else
    .request
      { first_name := s.firstName
        last_name := s.lastName
        state := s.stateField
        hometown := if s.searchMethod == "direct" then some s.hometown else none
        county := if s.searchMethod == "county" then some s.selectedCounty else none
        show_debug := s.showDebug }

/-- `true` exactly on the `clientError` outcome: the submission is
rejected with a client-input message and no request is posted. -/
def isClientError : ClientOutcome → Bool
  | .clientError _ => true
  | .request _ => false

/-! ## Definitions — Part II: the resolution engine

The backend (backend/main.py per the README's project structure) is
missing from the snapshot, so every definition below is modelled from
the specification (sections 3, 4, 6 and 7), faithful to its words. -/

/-- Modelled from the spec (§4.1): a character acceptable in a URL path
segment — unreserved characters (alphanumeric, `-`, `_`, `.`, `~`). -/
def isUrlSegmentChar (c : Char) : Bool :=
  c.isAlphanum || c == '-' || c == '_' || c == '.' || c == '~'

/-- Modelled from the spec (§4.1): a variant is emitted only if it is
non-empty and every character is valid for a URL path segment. -/
def validSegment (s : String) : Bool :=
  !s.data.isEmpty && s.data.all isUrlSegmentChar

/-- Modelled from the spec (§4.1, punctuation stripping): remove
apostrophes (code point 39) and periods. -/
def stripPunctL (l : List Char) : List Char :=
  l.filter (fun c => !(c.toNat == 39 || c == '.'))

/-- Split a character list into space-separated words (accumulator of
the current word, in reverse). -/
def wordsAux (cur : List Char) : List Char → List (List Char)
  | [] => [cur.reverse]
  | c :: cs => if c == ' ' then cur.reverse :: wordsAux [] cs else wordsAux (c :: cur) cs

/-- The space-separated words of a character list. -/
def wordsOf (l : List Char) : List (List Char) := wordsAux [] l

/-- Join words with the given separator. -/
def joinSep (sep : List Char) : List (List Char) → List Char
  | [] => []
  | [w] => w
  | w :: ws => w ++ sep ++ joinSep sep ws

/-- Uppercase the first character of a word. -/
def capitalizeL : List Char → List Char
  | [] => []
  | c :: cs => Char.toUpper c :: cs

/-- Lowercase every character. -/
def lowerL (l : List Char) : List Char := l.map Char.toLower

/-- Modelled from the spec (§4.1, case normalization): title-case —
capitalize each space-separated word. -/
def titleL (l : List Char) : List Char :=
  joinSep [' '] ((wordsOf l).map capitalizeL)

/-- Modelled from the spec (§4.1): the two case normalizations,
lowercase first (most likely to match real-world URL conventions). -/
def caseForms (l : List Char) : List (List Char) := [lowerL l, titleL l]

/-- Modelled from the spec (§4.1): whitespace-to-separator
substitutions — space to hyphen, space to underscore, space removed —
hyphen first. -/
def sepForms (l : List Char) : List (List Char) :=
  [joinSep ['-'] (wordsOf l), joinSep ['_'] (wordsOf l), joinSep [] (wordsOf l)]

/-- Order-preserving deduplication: keep the first occurrence, tracked
by an accumulator of already-emitted strings. -/
def dedupAux (seen : List String) : List String → List String
  | [] => []
  | x :: xs => if seen.contains x then dedupAux seen xs
               else x :: dedupAux (x :: seen) xs

/-- Deduplicate preserving generation order (first occurrence wins). -/
def dedupKeepFirst (l : List String) : List String := dedupAux [] l

/-- Modelled from the spec (§4.1), the Permutation Generator missing
with backend/main.py: `generate_variants(raw_city)` — strip punctuation,
apply the case normalizations and separator substitutions
(lowercase-hyphenated first), drop empty or URL-invalid variants
silently, and deduplicate preserving order. -/
def generate_variants (raw : String) : List String :=
  dedupKeepFirst
    ((((caseForms (stripPunctL raw.data)).flatMap sepForms).map String.mk).filter
      validSegment)

/-- Outcome classification of one probe attempt (spec §3,
`ProbeAttempt.outcome`). -/
inductive ProbeOutcome where
  | cacheHit | cacheMiss | confirmed | failed
  deriving DecidableEq, Repr

/-- The remote's answer to the phase-1 header-only existence check:
an HTTP status and a cache "miss" indicator header (spec §4.3). -/
structure HeadResp where
  status : Nat
  missIndicator : Bool
  deriving DecidableEq, Repr

/-- The remote's answer to the phase-2 content check: status, whether
the body is playable video content, and its length (spec §4.3). -/
structure GetResp where
  status : Nat
  isVideo : Bool
  contentLength : Nat
  deriving DecidableEq, Repr

/-- A network interaction either answers or fails at the network layer
(timeout, DNS failure, connection refused — spec §4.3). -/
inductive NetResult (α : Type) where
  | ok (a : α)
  | netError
  deriving DecidableEq, Repr

/-- The remote portal as the engine observes it: a response to each
possible phase-1 (head) and phase-2 (get) request. -/
structure Remote where
  head : String → NetResult HeadResp
  get : String → NetResult GetResp

/-- One run of the probe: its outcome classification plus whether the
phase-2 confirmation request was actually issued. -/
structure ProbeRun where
  outcome : ProbeOutcome
  phase2Issued : Bool
  deriving DecidableEq, Repr

/-- Modelled from the spec (§4.3): the phase-1 response signals absence
when the miss-indicator header is set or the status is 404-class. -/
def missSignal (h : HeadResp) : Bool :=
  h.missIndicator || (decide (400 ≤ h.status) && decide (h.status < 500))

/-- Modelled from the spec (§4.3), the Probe Client missing with
backend/main.py: `probe(url)` — cheap header pre-check first; on an
absence signal classify `cacheMiss` without issuing phase 2; otherwise
confirm the resource is genuinely retrievable as playable, non-empty
video content (`confirmed`), else `failed`.  Network-layer errors and
timeouts classify as `failed`. -/
def probe (remote : Remote) (url : String) : ProbeRun :=
  match remote.head url with
  | .netError => ⟨.failed, false⟩
  | .ok h =>
    if missSignal h then ⟨.cacheMiss, false⟩
    else match remote.get url with
      | .netError => ⟨.failed, true⟩
      | .ok g =>
        if g.status == 200 && g.isVideo && decide (0 < g.contentLength) then
          ⟨.confirmed, true⟩
        else ⟨.failed, true⟩

/-- Modelled from the spec (§4.2), the URL Resolver missing with
backend/main.py: `build_probe_url` — pure, deterministic composition of
state, variant and name into the portal's path convention (the exact
convention is illustrative per §6). -/
def build_probe_url (first last st variant : String) : String :=
  "https://videos.test/" ++ st ++ "/" ++ variant ++ "/" ++ first ++ "-" ++ last ++ ".mp4"

/-- One recorded probe attempt (spec §3): the URL, the candidate city it
came from, the variant, elapsed time and outcome classification. -/
structure ProbeAttempt where
  url : String
  city : String
  variant : String
  elapsed : Nat
  outcome : ProbeOutcome
  deriving DecidableEq, Repr

/-- Modelled from the spec (§4.4): try one candidate city's variants in
order, recording every attempt; stop at the first `confirmed` outcome
and report the winning (variant, url). -/
def probeCity (remote : Remote) (first last st city : String) :
    List String → List ProbeAttempt × Option (String × String)
  | [] => ([], none)
  | v :: vs =>
    let url := build_probe_url first last st v
    let r := probe remote url
    let att : ProbeAttempt := ⟨url, city, v, 0, r.outcome⟩
    if r.outcome = ProbeOutcome.confirmed then ([att], some (v, url))
    else
      let rest := probeCity remote first last st city vs
      (att :: rest.1, rest.2)

/-- Modelled from the spec (§4.4), the Search Orchestrator missing with
backend/main.py: try candidate cities in list order; on the first
confirmed variant stop all further probing and report the winning
(city, variant, url); otherwise accumulate the full trace, counting each
city attempted. -/
def runCities (remote : Remote) (first last st : String) :
    List String → List ProbeAttempt × Nat × Option (String × String × String)
  | [] => ([], 0, none)
  | c :: cs =>
    let pr := probeCity remote first last st c (generate_variants c)
    match pr.2 with
    | some (v, url) => (pr.1, 1, some (c, v, url))
    | none =>
      let rest := runCities remote first last st cs
      (pr.1 ++ rest.1, rest.2.1 + 1, rest.2.2)

/-- The final verdict of a search (spec §3, `SearchResult`). -/
structure SearchResult where
  hit_found : Bool
  city_found : Option String
  hometown_used : Option String
  mp4_link : Option String
  cities_tried : Nat
  total_cities : Nat
  debug_trace : List ProbeAttempt
  deriving DecidableEq, Repr

/-- Fill in the `elapsed` field of each recorded attempt from a timing
oracle (attempt index to elapsed time). -/
def stampTiming (clock : Nat → Nat) : Nat → List ProbeAttempt → List ProbeAttempt
  | _, [] => []
  | i, a :: tr => { a with elapsed := clock i } :: stampTiming clock (i + 1) tr

/-- Modelled from the spec (§4.4): assemble the `SearchResult` from the
orchestrator's output — a Hit carrying the winning city, variant and
link, or an Exhausted verdict with `hit_found = false`. -/
def mkResult (clock : Nat → Nat) (cities : List String)
    (out : List ProbeAttempt × Nat × Option (String × String × String)) :
    SearchResult :=
  match out with
  | (tr, n, some (c, v, url)) =>
    ⟨true, some c, some v, some url, n, cities.length, stampTiming clock 0 tr⟩
  | (tr, n, none) =>
    ⟨false, none, none, none, n, cities.length, stampTiming clock 0 tr⟩

/-- Request-level failures of the engine (spec §7). -/
inductive EngineError where
  | validationError
  | unknownCountyError
  deriving DecidableEq, Repr

/-- The request the engine receives (spec §3, `SearchRequest`; the mode
is carried by which of `hometown`/`county` is populated, per the wire
contract of §6). -/
structure SearchRequest where
  first_name : String
  last_name : String
  state : String
  hometown : Option String
  county : Option String
  show_debug : Bool
  deriving DecidableEq, Repr

/-- Modelled from the spec (§6), the Reference Data Provider:
`get_cities(county)` over a static county-to-cities table, failing with
`unknownCountyError` for unrecognized names — never an empty list. -/
def get_cities (table : List (String × List String)) (county : String) :
    Except EngineError (List String) :=
  match table.find? (fun p => p.1 == county) with
  | some p => Except.ok p.2
  | none => Except.error EngineError.unknownCountyError

/-- Modelled from the spec (§3 invariant and §7): the required identity
fields are present and exactly one of `hometown`/`county` is populated
and non-empty. -/
def validRequest (req : SearchRequest) : Bool :=
  !req.first_name.isEmpty && !req.last_name.isEmpty && !req.state.isEmpty &&
    match req.hometown, req.county with
    | some h, none => !h.isEmpty
    | none, some c => !c.isEmpty
    | _, _ => false

/-- Modelled from the spec (§4.4 and §7), the request entry point
missing with backend/main.py: validate before any network activity, then
run Direct mode over the single hometown or CountyFanOut mode over the
county's city list (rejecting unknown counties before probing). -/
def runSearch (table : List (String × List String)) (remote : Remote)
    (clock : Nat → Nat) (req : SearchRequest) :
    Except EngineError SearchResult :=
  if validRequest req = false then Except.error EngineError.validationError
  else
    match req.hometown with
    | some h =>
      Except.ok (mkResult clock [h]
        (runCities remote req.first_name req.last_name req.state [h]))
    | none =>
      match req.county with
      | some cty =>
        match get_cities table cty with
        | Except.error e => Except.error e
        | Except.ok cities =>
          Except.ok (mkResult clock cities
            (runCities remote req.first_name req.last_name req.state cities))
      | none => Except.error EngineError.validationError

/-- Zero out the timing field of every attempt in a trace. -/
def stripElapsed (tr : List ProbeAttempt) : List ProbeAttempt :=
  tr.map fun a => { a with elapsed := 0 }

/-- A `SearchResult` with its timing fields erased. -/
def stripResult (r : SearchResult) : SearchResult :=
  { r with debug_trace := stripElapsed r.debug_trace }

/-- A search outcome with the timing fields of any result erased. -/
def stripOutcome : Except EngineError SearchResult → Except EngineError SearchResult
  | Except.error e => Except.error e
  | Except.ok r => Except.ok (stripResult r)

/-- A probe stub whose phase-1 response is always a 404-class miss. -/
def remoteAllMiss : Remote :=
  ⟨fun _ => NetResult.ok ⟨404, true⟩, fun _ => NetResult.ok ⟨200, true, 1⟩⟩

/-- A probe stub that signals presence (and confirms) exactly on the
URL built from the variant `boone` of city `Boone`. -/
def remoteBooneStub : Remote :=
  ⟨fun url => if url = build_probe_url "seth" "weibel" "IA" "boone" then
      NetResult.ok ⟨200, false⟩ else NetResult.ok ⟨404, true⟩,
   fun _ => NetResult.ok ⟨200, true, 5⟩⟩

/-- The trace `runCities` produces for `remoteBooneStub` over the
candidate list `["Ames", "Boone", "Nevada"]`. -/
def booneTrace : List ProbeAttempt :=
  [⟨"https://videos.test/IA/ames/seth-weibel.mp4", "Ames", "ames", 0,
      ProbeOutcome.cacheMiss⟩,
   ⟨"https://videos.test/IA/Ames/seth-weibel.mp4", "Ames", "Ames", 0,
      ProbeOutcome.cacheMiss⟩,
   ⟨"https://videos.test/IA/boone/seth-weibel.mp4", "Boone", "boone", 0,
      ProbeOutcome.confirmed⟩]

/-! ## Theorems — helper lemmas -/

/-- The `searchMethod` hook only ever holds `"direct"` or `"county"`:
it is initialised to `"direct"` and only the two mode buttons write it. -/
theorem searchMethod_direct_or_county (es : List ClientEvent) :
    (runEvents es).searchMethod = "direct" ∨ (runEvents es).searchMethod = "county" := by
  suffices h : ∀ s : ClientState,
      s.searchMethod = "direct" ∨ s.searchMethod = "county" →
      (es.foldl step s).searchMethod = "direct" ∨
        (es.foldl step s).searchMethod = "county" by
    exact h initState (Or.inl rfl)
  induction es with
  | nil => intro s hs; exact hs
  | cons e es ih =>
    intro s hs
    simp only [List.foldl_cons]
    apply ih
    cases e <;> simp [step] <;> try exact hs

/-- Claim C1: every payload the client posts populates exactly one of
`hometown`/`county`, matching the selected search method: direct mode
sends `hometown` and a null `county`, county mode the reverse. -/
theorem client_payload_mode_exclusive (es : List ClientEvent) (p : SearchPayload)
    (h : handleSearch (runEvents es) = ClientOutcome.request p) :
    (p.hometown.isSome = true ∧ p.county = none ∧
        (runEvents es).searchMethod = "direct") ∨
    (p.county.isSome = true ∧ p.hometown = none ∧
        (runEvents es).searchMethod = "county") := by
  rcases searchMethod_direct_or_county es with hm | hm <;>
    [left; right] <;>
  · unfold handleSearch at h
    rw [hm] at h
    split at h
    · exact absurd h (by simp)
    · split at h
      · exact absurd h (by simp)
      · split at h
        · exact absurd h (by simp)
        · cases h
          simp [hm]

/-- Witness for C1: the direct-mode example from the repository README
(first `jack`, last `edwards`, hometown `Iowa City`). -/
theorem client_payload_mode_exclusive_witness :
    ((some "Iowa City" : Option String).isSome = true ∧
        (none : Option String) = none ∧
        (runEvents [ClientEvent.editFirstName "jack",
          ClientEvent.editLastName "edwards",
          ClientEvent.editHometown "Iowa City"]).searchMethod = "direct") ∨
    ((none : Option String).isSome = true ∧
        (some "Iowa City" : Option String) = none ∧
        (runEvents [ClientEvent.editFirstName "jack",
          ClientEvent.editLastName "edwards",
          ClientEvent.editHometown "Iowa City"]).searchMethod = "county") :=
  client_payload_mode_exclusive
    [ClientEvent.editFirstName "jack", ClientEvent.editLastName "edwards",
      ClientEvent.editHometown "Iowa City"]
    { first_name := "jack", last_name := "edwards", state := "IA",
      hometown := some "Iowa City", county := none, show_debug := false }
    (by decide)

/-- Claim C2: a submission missing a required identity field, or missing
the field its search method requires, is rejected with a client-input
error and never produces a request payload — no network activity. -/
theorem client_validation_blocks_request (s : ClientState)
    (h : s.firstName.isEmpty = true ∨ s.lastName.isEmpty = true ∨
      s.stateField.isEmpty = true ∨
      (s.searchMethod = "direct" ∧ s.hometown.isEmpty = true) ∨
      (s.searchMethod = "county" ∧ s.selectedCounty.isEmpty = true)) :
    isClientError (handleSearch s) = true := by
  unfold handleSearch
  split
  · rfl
  · next h1 =>
    split
    · rfl
    · next h2 =>
      split
      · rfl
      · next h3 =>
        exfalso
        rcases h with h | h | h | ⟨hm, he⟩ | ⟨hm, he⟩ <;> simp_all

/-- Witness for C2: the initial form state has empty name fields, so
submitting it is rejected client-side. -/
theorem client_validation_blocks_request_witness :
    isClientError (handleSearch initState) = true :=
  client_validation_blocks_request initState (Or.inl (by decide))

theorem mem_dedupAux {y : String} :
    ∀ {l seen : List String}, y ∈ dedupAux seen l → y ∈ l ∧ y ∉ seen := by
  intro l
  induction l with
  | nil => intro seen h; simp [dedupAux] at h
  | cons x xs ih =>
    intro seen h
    simp only [dedupAux] at h
    split at h
    · obtain ⟨h1, h2⟩ := ih h
      exact ⟨List.mem_cons_of_mem _ h1, h2⟩
    · next hc =>
      rcases List.mem_cons.mp h with rfl | h
      · refine ⟨List.mem_cons_self _ _, fun hy => hc ?_⟩
        exact List.elem_iff.mpr hy
      · obtain ⟨h1, h2⟩ := ih h
        refine ⟨List.mem_cons_of_mem _ h1, fun hy => h2 (List.mem_cons_of_mem _ hy)⟩

theorem nodup_dedupAux : ∀ (l seen : List String), (dedupAux seen l).Nodup := by
  intro l
  induction l with
  | nil => intro seen; simp [dedupAux]
  | cons x xs ih =>
    intro seen
    simp only [dedupAux]
    split
    · exact ih seen
    · refine List.nodup_cons.mpr ⟨fun hx => ?_, ih (x :: seen)⟩
      exact (mem_dedupAux hx).2 (List.mem_cons_self _ _)

/-- Claim C3: for every hometown string, `generate_variants` returns a
finite ordered list with no duplicates and no empty entries, and every
entry it emits is a valid URL path segment (empty or invalid candidates
are dropped, not emitted). -/
theorem generate_variants_sound (raw : String) :
    (generate_variants raw).Nodup ∧
      ∀ v ∈ generate_variants raw, v ≠ "" ∧ validSegment v = true := by
  constructor
  · exact nodup_dedupAux _ _
  · intro v hv
    have hmem : v ∈ (((caseForms (stripPunctL raw.data)).flatMap sepForms).map
        String.mk).filter validSegment := (mem_dedupAux hv).1
    have hval : validSegment v = true := List.of_mem_filter hmem
    refine ⟨?_, hval⟩
    intro hempty
    rw [hempty] at hval
    simp [validSegment] at hval

/-- Witness for C3: the variant `iowa-city` of hometown `Iowa City`. -/
theorem generate_variants_sound_witness :
    "iowa-city" ∈ generate_variants "Iowa City" ∧
      "iowa-city" ≠ "" ∧ validSegment "iowa-city" = true := by
  have h := generate_variants_sound "Iowa City"
  have hm : "iowa-city" ∈ generate_variants "Iowa City" := by decide
  exact ⟨hm, h.2 "iowa-city" hm⟩

/-! ## Theorems — the probe client (claim C6) -/

/-- Claim C6: the phase-2 confirmation request is never issued for an
attempt whose phase-1 pre-check signals absence (miss indicator or
404-class status): such attempts classify `cacheMiss` with no phase-2
request, and phase 2 runs only when phase 1 answered with presence. -/
theorem probe_two_phase (remote : Remote) (url : String) :
    (∀ hr, remote.head url = NetResult.ok hr → missSignal hr = true →
      probe remote url = ⟨ProbeOutcome.cacheMiss, false⟩) ∧
    ((probe remote url).phase2Issued = true →
      ∃ hr, remote.head url = NetResult.ok hr ∧ missSignal hr = false) := by
  cases hh : remote.head url with
  | netError =>
    constructor
    · intro hr heq; exact absurd heq (by simp)
    · intro hp
      exfalso
      simp [probe, hh] at hp
  | ok hr =>
    constructor
    · intro hr' heq hm
      obtain rfl : hr = hr' := by
        simpa using heq
      simp [probe, hh, hm]
    · intro hp
      refine ⟨hr, rfl, ?_⟩
      by_cases hm : missSignal hr = true
      · exfalso
        simp [probe, hh, hm] at hp
      · simpa using hm

/-- Witness for C6: against the all-miss stub the probe classifies
`cacheMiss` and issues no phase-2 request. -/
theorem probe_two_phase_witness :
    probe remoteAllMiss "https://videos.test/IA/ames/jane-doe.mp4" =
      ⟨ProbeOutcome.cacheMiss, false⟩ :=
  (probe_two_phase remoteAllMiss "https://videos.test/IA/ames/jane-doe.mp4").1
    ⟨404, true⟩ rfl rfl

/-! ## Theorems — the orchestrator (claims C4, C7) -/

theorem probeCity_city (remote : Remote) (f l s city : String) :
    ∀ vs, ∀ a ∈ (probeCity remote f l s city vs).1, a.city = city := by
  intro vs
  induction vs with
  | nil => intro a ha; simp [probeCity] at ha
  | cons v vs ih =>
    intro a ha
    simp only [probeCity] at ha
    split at ha
    · simp only [List.mem_singleton] at ha
      rw [ha]
    · rcases List.mem_cons.mp ha with rfl | ha
      · rfl
      · exact ih a ha

theorem probeCity_none (remote : Remote) (f l s city : String) :
    ∀ vs, (probeCity remote f l s city vs).2 = none →
      (probeCity remote f l s city vs).1.length = vs.length ∧
      ∀ a ∈ (probeCity remote f l s city vs).1,
        a.outcome ≠ ProbeOutcome.confirmed := by
  intro vs
  induction vs with
  | nil => intro _; exact ⟨rfl, by intro a ha; simp [probeCity] at ha⟩
  | cons v vs ih =>
    intro h2
    by_cases hc : (probe remote (build_probe_url f l s v)).outcome =
        ProbeOutcome.confirmed
    · exfalso
      simp only [probeCity, if_pos hc] at h2
      exact Option.noConfusion h2
    · simp only [probeCity, if_neg hc] at h2 ⊢
      obtain ⟨hlen, hout⟩ := ih h2
      refine ⟨by simp [hlen], ?_⟩
      intro a ha
      rcases List.mem_cons.mp ha with rfl | ha
      · exact hc
      · exact hout a ha

theorem probeCity_some (remote : Remote) (f l s city : String) :
    ∀ vs v url, (probeCity remote f l s city vs).2 = some (v, url) →
      v ∈ vs ∧ url = build_probe_url f l s v ∧
      (probe remote url).outcome = ProbeOutcome.confirmed ∧
      ∃ tr0, (probeCity remote f l s city vs).1 =
          tr0 ++ [⟨url, city, v, 0, ProbeOutcome.confirmed⟩] ∧
        ∀ a ∈ tr0, a.outcome ≠ ProbeOutcome.confirmed := by
  intro vs
  induction vs with
  | nil => intro v url h; simp [probeCity] at h
  | cons v0 vs ih =>
    intro v url h
    by_cases hc : (probe remote (build_probe_url f l s v0)).outcome =
        ProbeOutcome.confirmed
    · simp only [probeCity, if_pos hc] at h ⊢
      obtain ⟨rfl, rfl⟩ : v0 = v ∧ build_probe_url f l s v0 = url := by
        simpa using h
      refine ⟨List.mem_cons_self _ _, rfl, hc, [], ?_, by simp⟩
      simp [hc]
    · simp only [probeCity, if_neg hc] at h ⊢
      obtain ⟨hv, hurl, hconf, tr0, htr, hmiss⟩ := ih v url h
      refine ⟨List.mem_cons_of_mem _ hv, hurl, hconf,
        ⟨build_probe_url f l s v0, city, v0, 0,
          (probe remote (build_probe_url f l s v0)).outcome⟩ :: tr0, ?_, ?_⟩
      · simp [htr]
      · intro a ha
        rcases List.mem_cons.mp ha with rfl | ha
        · exact hc
        · exact hmiss a ha

theorem runCities_win (remote : Remote) (f l s : String) :
    ∀ (cities : List String) (tr : List ProbeAttempt) (n : Nat)
      (c v url : String),
      runCities remote f l s cities = (tr, n, some (c, v, url)) →
      1 ≤ n ∧ n ≤ cities.length ∧ cities.get? (n - 1) = some c ∧
      (∀ a ∈ tr, a.city ∈ cities.take n) ∧
      v ∈ generate_variants c ∧ url = build_probe_url f l s v ∧
      (probe remote url).outcome = ProbeOutcome.confirmed ∧
      ∃ tr0, tr = tr0 ++ [⟨url, c, v, 0, ProbeOutcome.confirmed⟩] ∧
        ∀ a ∈ tr0, a.outcome ≠ ProbeOutcome.confirmed := by
  intro cities
  induction cities with
  | nil => intro tr n c v url h; simp [runCities] at h
  | cons c0 cs ih =>
    intro tr n c v url h
    simp only [runCities] at h
    cases hpc : (probeCity remote f l s c0 (generate_variants c0)).2 with
    | some p =>
      rw [hpc] at h
      obtain ⟨v0, url0⟩ := p
      simp only [] at h
      obtain ⟨htr, hn, hw⟩ : (probeCity remote f l s c0 (generate_variants c0)).1 = tr ∧
          1 = n ∧ some (c0, v0, url0) = some (c, v, url) := by
        refine ⟨congrArg Prod.fst h, ?_, ?_⟩
        · exact congrArg (fun q => q.2.1) h
        · exact congrArg (fun q => q.2.2) h
      obtain ⟨rfl, rfl, rfl⟩ : c = c0 ∧ v = v0 ∧ url = url0 := by
        have := hw.symm
        simpa using this
      subst htr hn
      obtain ⟨hv, hurl, hconf, tr0, htr0, hmiss⟩ :=
        probeCity_some remote f l s c _ v url hpc
      refine ⟨Nat.le_refl 1, by simp, rfl, ?_, hv, hurl, hconf, tr0, htr0, hmiss⟩
      intro a ha
      have := probeCity_city remote f l s c _ a ha
      simp [this]
    | none =>
      rw [hpc] at h
      simp only [] at h
      obtain ⟨htr, hn, hw⟩ :
          (probeCity remote f l s c0 (generate_variants c0)).1 ++
              (runCities remote f l s cs).1 = tr ∧
            (runCities remote f l s cs).2.1 + 1 = n ∧
            (runCities remote f l s cs).2.2 = some (c, v, url) := by
        refine ⟨congrArg Prod.fst h, congrArg (fun q => q.2.1) h,
          congrArg (fun q => q.2.2) h⟩
      have hcs : runCities remote f l s cs =
          ((runCities remote f l s cs).1, (runCities remote f l s cs).2.1,
            some (c, v, url)) := by
        rw [← hw]
      obtain ⟨h1, hlen, hget, htake, hv, hurl, hconf, tr0, htr0, hmiss⟩ :=
        ih _ _ c v url hcs
      obtain ⟨hplen, hpout⟩ := probeCity_none remote f l s c0 _ hpc
      subst htr hn
      refine ⟨Nat.le_succ_of_le h1, by simpa using hlen, ?_, ?_, hv, hurl, hconf,
        (probeCity remote f l s c0 (generate_variants c0)).1 ++ tr0, ?_, ?_⟩
      · obtain ⟨m, hm⟩ := Nat.exists_eq_add_of_le h1
        rw [hm] at hget ⊢
        have hm1 : 1 + m - 1 = m := by omega
        have hm2 : 1 + m + 1 - 1 = m + 1 := by omega
        rw [hm1] at hget
        rw [hm2]
        simpa using hget
      · intro a ha
        rcases List.mem_append.mp ha with ha | ha
        · have := probeCity_city remote f l s c0 _ a ha
          rw [this]
          exact List.mem_cons_self _ _
        · have := htake a ha
          exact List.mem_cons_of_mem _ this
      · rw [htr0, List.append_assoc]
      · intro a ha
        rcases List.mem_append.mp ha with ha | ha
        · exact hpout a ha
        · exact hmiss a ha

/-- Claim C4: candidates are tried in list order; on the first confirmed
outcome the orchestrator stops all further probing — the winner is the
`cities_tried`-th candidate, every recorded attempt belongs to the first
`cities_tried` candidates, the confirming attempt is the last one
recorded and no earlier attempt confirmed — and the assembled result is
a Hit carrying the winning city, winning variant and resolved link.
(The Ames/Boone/Nevada county fan-out example is the witness.) -/
theorem orchestrator_early_exit (remote : Remote) (f l s : String)
    (cities : List String) (tr : List ProbeAttempt) (n : Nat) (c v url : String)
    (h : runCities remote f l s cities = (tr, n, some (c, v, url))) :
    1 ≤ n ∧ n ≤ cities.length ∧ cities.get? (n - 1) = some c ∧
    (∀ a ∈ tr, a.city ∈ cities.take n) ∧
    v ∈ generate_variants c ∧ url = build_probe_url f l s v ∧
    (probe remote url).outcome = ProbeOutcome.confirmed ∧
    (∃ tr0, tr = tr0 ++ [⟨url, c, v, 0, ProbeOutcome.confirmed⟩] ∧
      ∀ a ∈ tr0, a.outcome ≠ ProbeOutcome.confirmed) ∧
    ∀ clock, mkResult clock cities (tr, n, some (c, v, url)) =
      ⟨true, some c, some v, some url, n, cities.length, stampTiming clock 0 tr⟩ := by
  obtain ⟨h1, h2, h3, h4, h5, h6, h7, h8⟩ :=
    runCities_win remote f l s cities tr n c v url h
  exact ⟨h1, h2, h3, h4, h5, h6, h7, h8, fun _ => rfl⟩

/-- Witness for C4: county fan-out over `["Ames", "Boone", "Nevada"]`
with a stub confirming only on city `Boone` — two cities tried, winner
`Boone`, `Nevada` never probed, result is a Hit. -/
theorem orchestrator_early_exit_witness :
    1 ≤ 2 ∧ 2 ≤ (["Ames", "Boone", "Nevada"] : List String).length ∧
    (["Ames", "Boone", "Nevada"] : List String).get? (2 - 1) = some "Boone" ∧
    (booneTrace.all fun a => a.city != "Nevada") = true ∧
    (mkResult (fun _ => 0) ["Ames", "Boone", "Nevada"]
      (booneTrace, 2, some ("Boone", "boone",
        "https://videos.test/IA/boone/seth-weibel.mp4"))).hit_found = true ∧
    (mkResult (fun _ => 0) ["Ames", "Boone", "Nevada"]
      (booneTrace, 2, some ("Boone", "boone",
        "https://videos.test/IA/boone/seth-weibel.mp4"))).city_found = some "Boone" ∧
    (mkResult (fun _ => 0) ["Ames", "Boone", "Nevada"]
      (booneTrace, 2, some ("Boone", "boone",
        "https://videos.test/IA/boone/seth-weibel.mp4"))).cities_tried = 2 := by
  have h := orchestrator_early_exit remoteBooneStub "seth" "weibel" "IA"
    ["Ames", "Boone", "Nevada"] booneTrace 2 "Boone" "boone"
    "https://videos.test/IA/boone/seth-weibel.mp4" (by decide)
  exact ⟨h.1, h.2.1, h.2.2.1, by decide, by decide, by decide, by decide⟩

theorem probeCity_miss (remote : Remote) (f l s city : String)
    (hmiss : ∀ url, (probe remote url).outcome ≠ ProbeOutcome.confirmed) :
    ∀ vs, (probeCity remote f l s city vs).2 = none := by
  intro vs
  cases hp : (probeCity remote f l s city vs).2 with
  | none => rfl
  | some p =>
    obtain ⟨v, url⟩ := p
    obtain ⟨_, _, hconf, _⟩ := probeCity_some remote f l s city vs v url hp
    exact absurd hconf (hmiss url)

theorem runCities_miss (remote : Remote) (f l s : String)
    (hmiss : ∀ url, (probe remote url).outcome ≠ ProbeOutcome.confirmed) :
    ∀ cities : List String,
      (runCities remote f l s cities).2.2 = none ∧
      (runCities remote f l s cities).2.1 = cities.length ∧
      (runCities remote f l s cities).1.length =
        (cities.map fun c => (generate_variants c).length).sum := by
  intro cities
  induction cities with
  | nil => exact ⟨rfl, rfl, rfl⟩
  | cons c0 cs ih =>
    have hpc := probeCity_miss remote f l s c0 hmiss (generate_variants c0)
    obtain ⟨hplen, _⟩ := probeCity_none remote f l s c0 _ hpc
    obtain ⟨ih1, ih2, ih3⟩ := ih
    simp only [runCities]
    rw [hpc]
    simp only [List.length_append, List.map_cons, List.sum_cons, List.length_cons]
    exact ⟨ih1, by rw [ih2], by rw [hplen, ih3]⟩

theorem sum_eq_of_all_eq : ∀ (l : List Nat) (M : Nat), (∀ x ∈ l, x = M) →
    l.sum = l.length * M := by
  intro l M h
  induction l with
  | nil => simp
  | cons x xs ih =>
    have hx := h x (List.mem_cons_self _ _)
    have ih' := ih fun y hy => h y (List.mem_cons_of_mem _ hy)
    simp only [List.sum_cons, List.length_cons]
    rw [hx, ih']
    ring

theorem sum_le_of_all_le : ∀ (l : List Nat) (M : Nat), (∀ x ∈ l, x ≤ M) →
    l.sum ≤ l.length * M := by
  intro l M h
  induction l with
  | nil => simp
  | cons x xs ih =>
    have hx := h x (List.mem_cons_self _ _)
    have ih' := ih fun y hy => h y (List.mem_cons_of_mem _ hy)
    simp only [List.sum_cons, List.length_cons]
    calc x + xs.sum ≤ M + xs.length * M := Nat.add_le_add hx ih'
    _ = (xs.length + 1) * M := by ring

theorem stampTiming_length (clock : Nat → Nat) :
    ∀ i tr, (stampTiming clock i tr).length = tr.length := by
  intro i tr
  induction tr generalizing i with
  | nil => rfl
  | cons a tr ih => simp [stampTiming, ih]

theorem mkResult_of_none (clock : Nat → Nat) (cities : List String)
    (out : List ProbeAttempt × Nat × Option (String × String × String))
    (h : out.2.2 = none) :
    mkResult clock cities out =
      ⟨false, none, none, none, out.2.1, cities.length, stampTiming clock 0 out.1⟩ := by
  obtain ⟨tr, n, w⟩ := out
  cases w with
  | none => rfl
  | some p => simp at h

/-- Claim C7: when no probe confirms, the search exhausts every variant
of every candidate: the trace records exactly the sum of each city's
variant count — N×M attempts when every one of the N cities has M
variants, and never more than N×M when M bounds each city's variant
count — with `hit_found = false` and `cities_tried = N`. -/
theorem all_miss_exhaustive (remote : Remote) (f l s : String)
    (cities : List String)
    (hmiss : ∀ url, (probe remote url).outcome ≠ ProbeOutcome.confirmed) :
    (runCities remote f l s cities).2.2 = none ∧
    (runCities remote f l s cities).2.1 = cities.length ∧
    (runCities remote f l s cities).1.length =
      (cities.map fun c => (generate_variants c).length).sum ∧
    (∀ M, (∀ c ∈ cities, (generate_variants c).length = M) →
      (runCities remote f l s cities).1.length = cities.length * M) ∧
    (∀ M, (∀ c ∈ cities, (generate_variants c).length ≤ M) →
      (runCities remote f l s cities).1.length ≤ cities.length * M) ∧
    ∀ clock,
      (mkResult clock cities (runCities remote f l s cities)).hit_found = false ∧
      (mkResult clock cities (runCities remote f l s cities)).cities_tried =
        cities.length ∧
      (mkResult clock cities (runCities remote f l s cities)).debug_trace.length =
        (cities.map fun c => (generate_variants c).length).sum := by
  obtain ⟨h1, h2, h3⟩ := runCities_miss remote f l s hmiss cities
  refine ⟨h1, h2, h3, ?_, ?_, ?_⟩
  · intro M hM
    rw [h3]
    have := sum_eq_of_all_eq (cities.map fun c => (generate_variants c).length) M
      (by intro x hx; obtain ⟨c, hc, rfl⟩ := List.mem_map.mp hx; exact hM c hc)
    rw [this, List.length_map]
  · intro M hM
    rw [h3]
    have := sum_le_of_all_le (cities.map fun c => (generate_variants c).length) M
      (by intro x hx; obtain ⟨c, hc, rfl⟩ := List.mem_map.mp hx; exact hM c hc)
    rw [List.length_map] at this
    exact this
  · intro clock
    rw [mkResult_of_none clock cities _ h1]
    refine ⟨rfl, h2, ?_⟩
    show (stampTiming clock 0 (runCities remote f l s cities).1).length = _
    rw [stampTiming_length, h3]

/-- Witness for C7: two candidate cities with two variants each against
the all-miss stub — four attempts, no hit, both cities tried. -/
theorem all_miss_exhaustive_witness :
    (runCities remoteAllMiss "jane" "doe" "IA" ["Ames", "Boone"]).2.2 = none ∧
    (runCities remoteAllMiss "jane" "doe" "IA" ["Ames", "Boone"]).2.1 = 2 ∧
    (runCities remoteAllMiss "jane" "doe" "IA" ["Ames", "Boone"]).1.length = 4 ∧
    (mkResult (fun _ => 0) ["Ames", "Boone"]
      (runCities remoteAllMiss "jane" "doe" "IA" ["Ames", "Boone"])).hit_found
      = false := by
  have h := all_miss_exhaustive remoteAllMiss "jane" "doe" "IA" ["Ames", "Boone"]
    (by intro url hc; simp [probe, remoteAllMiss, missSignal] at hc)
  exact ⟨h.1, by decide, by decide, by decide⟩

/-! ## Theorems — request-level behavior (claims C5, C8, C9) -/

/-- Claim C5: a CountyFanOut request naming a county absent from the
reference table fails with `unknownCountyError` for every remote and
clock — the outcome does not depend on the network, so zero probe
attempts are made — and it is never an ok result (never silently
treated as a county with zero cities). -/
theorem unknown_county_rejected (table : List (String × List String))
    (req : SearchRequest) (cty : String)
    (hvalid : validRequest req = true)
    (hht : req.hometown = none) (hcty : req.county = some cty)
    (hfind : table.find? (fun p => p.1 == cty) = none) :
    (∀ (remote : Remote) (clock : Nat → Nat),
      runSearch table remote clock req =
        Except.error EngineError.unknownCountyError) ∧
    ∀ (remote : Remote) (clock : Nat → Nat) (res : SearchResult),
      runSearch table remote clock req ≠ Except.ok res := by
  have hmain : ∀ (remote : Remote) (clock : Nat → Nat),
      runSearch table remote clock req =
        Except.error EngineError.unknownCountyError := by
    intro remote clock
    simp [runSearch, hvalid, hht, hcty, get_cities, hfind]
  refine ⟨hmain, fun remote clock res hok => ?_⟩
  rw [hmain remote clock] at hok
  exact Except.noConfusion hok

/-- Witness for C5: county `Atlantis` is not in a table holding only
`Story`, so the fan-out request is rejected with `unknownCountyError`. -/
theorem unknown_county_rejected_witness :
    runSearch [("Story", ["Ames", "Boone", "Nevada"])] remoteAllMiss (fun _ => 0)
      ⟨"jane", "doe", "IA", none, some "Atlantis", false⟩ =
      Except.error EngineError.unknownCountyError :=
  (unknown_county_rejected [("Story", ["Ames", "Boone", "Nevada"])]
      ⟨"jane", "doe", "IA", none, some "Atlantis", false⟩ "Atlantis"
      (by decide) rfl rfl (by decide)).1 remoteAllMiss (fun _ => 0)

theorem mkResult_shape (clock : Nat → Nat) (cities : List String)
    (out : List ProbeAttempt × Nat × Option (String × String × String)) :
    ((mkResult clock cities out).hometown_used.isSome = true ↔
      (mkResult clock cities out).hit_found = true) ∧
    ((mkResult clock cities out).hit_found = true →
      (mkResult clock cities out).mp4_link.isSome = true ∧
      (mkResult clock cities out).city_found.isSome = true) := by
  obtain ⟨tr, n, w⟩ := out
  cases w with
  | none => simp [mkResult]
  | some p => obtain ⟨c, v, url⟩ := p; simp [mkResult]

/-- Claim C8: every result returned for a valid request has
`hometown_used` populated exactly when `hit_found` is true (so exactly
one of hometown_used-present / hit_found=false holds), and a hit always
carries both `mp4_link` and `city_found`. -/
theorem result_invariant (table : List (String × List String)) (remote : Remote)
    (clock : Nat → Nat) (req : SearchRequest) (res : SearchResult)
    (h : runSearch table remote clock req = Except.ok res) :
    (res.hometown_used.isSome = true ↔ res.hit_found = true) ∧
    (res.hit_found = true →
      res.mp4_link.isSome = true ∧ res.city_found.isSome = true) := by
  unfold runSearch at h
  split at h
  · exact absurd h (by simp)
  · split at h
    · next hhh =>
      obtain rfl : mkResult clock _ _ = res := by simpa using h
      exact mkResult_shape clock _ _
    · split at h
      · split at h
        · exact absurd h (by simp)
        · obtain rfl : mkResult clock _ _ = res := by simpa using h
          exact mkResult_shape clock _ _
      · exact absurd h (by simp)

/-- Witness for C8: a valid direct-mode request against the all-miss
stub — `hometown_used` absent matches `hit_found = false`. -/
theorem result_invariant_witness :
    ((mkResult (fun _ => 0) ["Ames"]
        (runCities remoteAllMiss "jane" "doe" "IA" ["Ames"])).hometown_used.isSome
          = true ↔
      (mkResult (fun _ => 0) ["Ames"]
        (runCities remoteAllMiss "jane" "doe" "IA" ["Ames"])).hit_found = true) ∧
    ((mkResult (fun _ => 0) ["Ames"]
        (runCities remoteAllMiss "jane" "doe" "IA" ["Ames"])).hit_found = true →
      (mkResult (fun _ => 0) ["Ames"]
        (runCities remoteAllMiss "jane" "doe" "IA" ["Ames"])).mp4_link.isSome
          = true ∧
      (mkResult (fun _ => 0) ["Ames"]
        (runCities remoteAllMiss "jane" "doe" "IA" ["Ames"])).city_found.isSome
          = true) :=
  result_invariant [] remoteAllMiss (fun _ => 0)
    ⟨"jane", "doe", "IA", some "Ames", none, false⟩ _ rfl

theorem stripElapsed_stampTiming (c1 c2 : Nat → Nat) :
    ∀ i j tr, stripElapsed (stampTiming c1 i tr) = stripElapsed (stampTiming c2 j tr) := by
  intro i j tr
  induction tr generalizing i j with
  | nil => rfl
  | cons a tr ih =>
    have h := ih (i + 1) (j + 1)
    simp only [stampTiming, stripElapsed, List.map_cons] at h ⊢
    rw [h]

theorem stripResult_mkResult (c1 c2 : Nat → Nat) (cities : List String)
    (out : List ProbeAttempt × Nat × Option (String × String × String)) :
    stripResult (mkResult c1 cities out) = stripResult (mkResult c2 cities out) := by
  obtain ⟨tr, n, w⟩ := out
  cases w with
  | none =>
    simp only [mkResult, stripResult]
    rw [stripElapsed_stampTiming c1 c2 0 0 tr]
  | some p =>
    obtain ⟨c, v, url⟩ := p
    simp only [mkResult, stripResult]
    rw [stripElapsed_stampTiming c1 c2 0 0 tr]

/-- Claim C9: the search is deterministic — against the same table and
unchanged remote, any two runs of the same request (here: under any two
timing oracles) return identical outcomes in every field except the
per-attempt timing. -/
theorem search_idempotent (table : List (String × List String)) (remote : Remote)
    (clock1 clock2 : Nat → Nat) (req : SearchRequest) :
    stripOutcome (runSearch table remote clock1 req) =
      stripOutcome (runSearch table remote clock2 req) := by
  obtain ⟨fn, ln, st, ht, cnty, dbg⟩ := req
  unfold runSearch
  split
  · rfl
  · cases ht with
    | some h =>
      simp only [stripOutcome]
      rw [stripResult_mkResult clock1 clock2]
    | none =>
      cases cnty with
      | none => rfl
      | some cty =>
        cases hg : get_cities table cty with
        | error e => simp only [hg]
        | ok cities =>
          simp only [hg, stripOutcome]
          rw [stripResult_mkResult clock1 clock2]
